import Mathlib

/-!
Shallow embedding of the `EarlyErrorJavaScript` lint rule
(`crates/oxc_linter/src/rules/early_error/javascript.rs`).

The rule visits one AST node at a time.  For each visited node the lint
context supplies: the node's kind, the kind of its parent, the chain of
ancestor kinds (the iterator `ctx.ancestors(node)` starts at the node
itself, which is why the source calls `.skip(1)` — modelled here by
`List.drop 1`), the strict-mode status of the node, and the full source
text from which raw spans are sliced.  Diagnostics are modelled as the
list of records appended to the sink during one invocation.
-/

namespace EarlyErrorJs

/-- A byte range into the source text (`Span { start, end }`; `end` is a
Lean keyword, so the field is named `endPos`). -/
structure Span where
  start : Nat
  endPos : Nat
deriving DecidableEq

/-- `span.source_text(source)`: the slice `source[start..end]`. -/
def sliceSpan (src : List Char) (s : Span) : List Char :=
  (src.take s.endPos).drop s.start

/-- `PrivateIdentifier { name, span }`. -/
structure PrivateIdentifier where
  name : String
  span : Span
deriving DecidableEq

/-- `PropertyKey`: only the `PrivateIdentifier` variant is inspected by the
rule; every other variant is collapsed into `other`. -/
inductive PropertyKey where
  | privateIdentifier (ident : PrivateIdentifier)
  | other
deriving DecidableEq

/-- A `ClassElement`, reduced to the `property_key()` accessor the rule
uses (`None` when the element exposes no key). -/
structure ClassElement where
  property_key : Option PropertyKey
deriving DecidableEq

/-- `ClassBody { body }`. -/
structure ClassBody where
  body : List ClassElement
deriving DecidableEq

/-- `Class { body }`, reduced to the body the rule scans. -/
structure Class where
  body : ClassBody
deriving DecidableEq

/-- `NumberBase` of a numeric literal. -/
inductive NumberBase where
  | binary
  | decimal
  | float
  | hex
  | octal
deriving DecidableEq

/-- `NumberLiteral { base, raw, span }` (`raw` is the literal's source
text). -/
structure NumberLiteral where
  base : NumberBase
  raw : List Char
  span : Span
deriving DecidableEq

/-- `StringLiteral { span, value }` (`value` is the decoded string; the
raw text is recovered by slicing `span` out of the source). -/
structure StringLiteral where
  span : Span
  value : List Char
deriving DecidableEq

/-- `RegExpFlags`: a bit set with one flag per field. -/
structure RegExpFlags where
  g : Bool
  i : Bool
  m : Bool
  s : Bool
  u : Bool
  y : Bool
  d : Bool
  v : Bool
deriving DecidableEq

/-- Bit-set union `a | b`. -/
def RegExpFlags.union (a b : RegExpFlags) : RegExpFlags :=
  ⟨a.g || b.g, a.i || b.i, a.m || b.m, a.s || b.s,
   a.u || b.u, a.y || b.y, a.d || b.d, a.v || b.v⟩

/-- Bit-set containment `a.contains(b)`: every flag set in `b` is set in
`a`. -/
def RegExpFlags.contains (a b : RegExpFlags) : Bool :=
  (!b.g || a.g) && (!b.i || a.i) && (!b.m || a.m) && (!b.s || a.s) &&
  (!b.u || a.u) && (!b.y || a.y) && (!b.d || a.d) && (!b.v || a.v)

/-- `RegExpFlags::U` (the `u` flag). -/
def RegExpFlags.U : RegExpFlags :=
  ⟨false, false, false, false, true, false, false, false⟩

/-- `RegExpFlags::V` (the `v` flag). -/
def RegExpFlags.V : RegExpFlags :=
  ⟨false, false, false, false, false, false, false, true⟩

/-- `RegExp { flags }`, reduced to the flags the rule reads. -/
structure RegExp where
  flags : RegExpFlags
deriving DecidableEq

/-- `RegExpLiteral { span, regex }`. -/
structure RegExpLiteral where
  span : Span
  regex : RegExp
deriving DecidableEq

/-- `LabelIdentifier { name, span }`. -/
structure LabelIdentifier where
  name : String
  span : Span
deriving DecidableEq

/-- `BreakStatement { span, label }`. -/
structure BreakStatement where
  span : Span
  label : Option LabelIdentifier
deriving DecidableEq

/-- `ContinueStatement { span, label }`. -/
structure ContinueStatement where
  span : Span
  label : Option LabelIdentifier
deriving DecidableEq

/-- `AstKind`: the node kinds the rule dispatches on or meets during its
ancestor walks, each carrying exactly the payload the rule reads; all
remaining kinds are collapsed into `other`. -/
inductive AstKind where
  | privateIdentifier (ident : PrivateIdentifier)
  | numberLiteral (lit : NumberLiteral)
  | stringLiteral (lit : StringLiteral)
  | regExpLiteral (lit : RegExpLiteral)
  | breakStatement (stmt : BreakStatement)
  | continueStatement (stmt : ContinueStatement)
  | class_ (c : Class)
  | classHeritage
  | propertyKey
  | program
  | function_
  | staticBlock
  | labeledStatement (label : LabelIdentifier)
  | doWhileStatement
  | whileStatement
  | forStatement
  | forInStatement
  | forOfStatement
  | switchStatement
  | other
deriving DecidableEq

/-- `AstKind::is_iteration_statement()`. -/
def AstKind.is_iteration_statement : AstKind → Bool
  | .doWhileStatement | .whileStatement | .forStatement
  | .forInStatement | .forOfStatement => true
  | _ => false

/-- `matches!(kind, AstKind::SwitchStatement(_))`. -/
def AstKind.isSwitchStatement : AstKind → Bool
  | .switchStatement => true
  | _ => false

/-- `matches!(kind, AstKind::PropertyKey(_))`. -/
def AstKind.isPropertyKeyKind : AstKind → Bool
  | .propertyKey => true
  | _ => false

/-- The lint context, restricted to the queries the rule makes about the
single node being visited: `ctx.parent_kind(node)`, the kinds along
`ctx.ancestors(node)` (nearest first, starting at the node itself),
`ctx.strict_mode(node)`, and `ctx.source_text()`. -/
structure Ctx where
  parentKind : AstKind
  ancestorsKinds : List AstKind
  strictMode : Bool
  sourceText : List Char

/-- The closed set of diagnostic records the rule can emit, one
constructor per `#[derive(Diagnostic)]` struct in the source, carrying
the data each one labels. -/
inductive Diag where
  | privateNotInClass (name : String) (span : Span)
  | privateFieldUndeclared (name : String) (span : Span)
  | legacyOctal (span : Span)
  | leadingZeroDecimal (span : Span)
  | nonOctalDecimalEscapeSequence (span : Span)
  | regExpFlagUAndV (span : Span)
  | invalidBreak (span : Span)
  | invalidContinue (span : Span)
  | invalidLabelTarget (span : Span)
  | invalidLabelJumpTarget (span : Span)
deriving DecidableEq

/-- The class-collecting ancestor loop of `check_private_identifier`:
push every `Class` met, stop at the first `ClassHeritage`. -/
def collectClasses : List AstKind → List Class
  | [] => []
  | k :: rest =>
    match k with
    | .class_ c => c :: collectClasses rest
    | .classHeritage => []
    | _ => collectClasses rest

/-- The body scan inside `check_private_identifier`: does some element of
the class's own body declare `name` as a `PrivateIdentifier` property
key? -/
def classDeclaresPrivateName (c : Class) (name : String) : Bool :=
  c.body.body.any fun d =>
    match d.property_key with
    | some (.privateIdentifier prop_ident) => prop_ident.name == name
    | _ => false

/-- `check_private_identifier`. -/
def check_private_identifier (ident : PrivateIdentifier) (ctx : Ctx) :
    List Diag :=
  if ctx.parentKind.isPropertyKeyKind then []
  else
    let classes := collectClasses (ctx.ancestorsKinds.drop 1)
    if classes.isEmpty then
      [Diag.privateNotInClass ident.name ident.span]
    else
      let found_private_ident :=
        classes.any fun c => classDeclaresPrivateName c ident.name
      if !found_private_ident then
        [Diag.privateFieldUndeclared ident.name ident.span]
      else []

/-- `leading_zero` (local to `check_number_literal`): at least two
characters, the first `'0'`, the second an ASCII digit. -/
def leading_zero (s : List Char) : Bool :=
  match s with
  | first :: second :: _ => first == '0' && second.isDigit
  | _ => false

/-- `check_number_literal`. -/
def check_number_literal (lit : NumberLiteral) (ctx : Ctx) : List Diag :=
  if ctx.strictMode then
    match lit.base with
    | .octal =>
      if leading_zero lit.raw then [Diag.legacyOctal lit.span] else []
    | .decimal =>
      if leading_zero lit.raw then [Diag.leadingZeroDecimal lit.span]
      else []
    | _ => []
  else []

/-- The escape-scanning `while` loop of `check_string_literal`: on each
backslash, classify the escape; the first forbidden one is reported and
the loop returns.  The `'0'` case peeks at the following character
without consuming it, exactly as `chars.peek()` does. -/
def scanLoop (sp : Span) : List Char → List Diag
  | [] => []
  | c :: rest =>
    if c == '\\' then
      match rest with
      | [] => []
      | d :: rest2 =>
        if d == '0' then
          match rest2 with
          | [] => scanLoop sp rest2
          | e :: _ =>
            if '1' ≤ e && e ≤ '9' then [Diag.legacyOctal sp]
            else scanLoop sp rest2
        else if '1' ≤ d && d ≤ '7' then [Diag.legacyOctal sp]
        else if '8' ≤ d && d ≤ '9' then
          [Diag.nonOctalDecimalEscapeSequence sp]
        else scanLoop sp rest2
    else scanLoop sp rest

/-- `check_string_literal`: slice the raw text out of the source, and
scan it only in strict mode and only when the raw and decoded lengths
differ (the fast path). -/
def check_string_literal (lit : StringLiteral) (ctx : Ctx) : List Diag :=
  let raw := sliceSpan ctx.sourceText lit.span
  if ctx.strictMode && (raw.length != lit.value.length) then
    scanLoop lit.span raw
  else []

/-- `check_regexp_literal`. -/
def check_regexp_literal (lit : RegExpLiteral) (ctx : Ctx) : List Diag :=
  let flags := lit.regex.flags
  if flags.contains (RegExpFlags.U.union RegExpFlags.V) then
    [Diag.regExpFlagUAndV lit.span]
  else []

/-- The ancestor loop of `check_break_statement`, walking the chain
nearest-first (the caller has already dropped the node itself). -/
def breakWalk (stmt : BreakStatement) : List AstKind → List Diag
  | [] => []
  | k :: rest =>
    match k with
    | .program =>
      match stmt.label with
      | none => [Diag.invalidBreak stmt.span]
      | some label => [Diag.invalidLabelTarget label.span]
    | .function_ | .staticBlock =>
      match stmt.label with
      | none => [Diag.invalidContinue stmt.span]
      | some label => [Diag.invalidLabelJumpTarget label.span]
    | .labeledStatement labeled_statement =>
      match stmt.label with
      | some label =>
        if label.name == labeled_statement.name then []
        else breakWalk stmt rest
      | none => breakWalk stmt rest
    | kind =>
      if (kind.is_iteration_statement || kind.isSwitchStatement)
          && stmt.label.isNone then []
      else breakWalk stmt rest

/-- `check_break_statement`. -/
def check_break_statement (stmt : BreakStatement) (ctx : Ctx) :
    List Diag :=
  breakWalk stmt (ctx.ancestorsKinds.drop 1)

/-- `EarlyErrorJavaScript::run`: dispatch on the visited node's kind;
every kind other than the five listed ones is ignored. -/
def run (kind : AstKind) (ctx : Ctx) : List Diag :=
  match kind with
  | .privateIdentifier ident => check_private_identifier ident ctx
  | .numberLiteral lit => check_number_literal lit ctx
  | .stringLiteral lit => check_string_literal lit ctx
  | .regExpLiteral lit => check_regexp_literal lit ctx
  | .breakStatement stmt => check_break_statement stmt ctx
  | _ => []

/-- The kind of a forbidden escape sequence, as classified by §4.3 of the
spec: the two legacy-octal shapes versus the non-octal decimal shape. -/
inductive EscKind where
  | legacyOctal
  | nonOctalDecimal
deriving DecidableEq

/-- The leftmost forbidden escape of a raw text, found by the same
left-to-right scan the rule performs (each escape's two characters are
consumed together, so an escaped backslash does not start an escape). -/
def scanEscapes : List Char → Option EscKind
  | [] => none
  | c :: rest =>
    if c == '\\' then
      match rest with
      | [] => none
      | d :: rest2 =>
        if d == '0' then
          match rest2 with
          | [] => scanEscapes rest2
          | e :: _ =>
            if '1' ≤ e && e ≤ '9' then some EscKind.legacyOctal
            else scanEscapes rest2
        else if '1' ≤ d && d ≤ '7' then some EscKind.legacyOctal
        else if '8' ≤ d && d ≤ '9' then some EscKind.nonOctalDecimal
        else scanEscapes rest2
    else scanEscapes rest

/-- The diagnostic the rule emits for each forbidden-escape kind. -/
def escDiag (k : EscKind) (sp : Span) : Diag :=
  match k with
  | .legacyOctal => Diag.legacyOctal sp
  | .nonOctalDecimal => Diag.nonOctalDecimalEscapeSequence sp

/-- Modelled from the spec: the parser's string-literal decoding is not
part of this file's source (the decoded `value` is produced upstream);
§4.3 relies only on the fact that "escapes always expand into a shorter
decoded representation than their raw form".  This model replaces each
backslash escape (a backslash plus the following character) by a single
character and is used only through the lengths of its results. -/
def decodeStr : List Char → List Char
  | [] => []
  | c :: rest =>
    if c == '\\' then
      match rest with
      | [] => []
      | d :: rest2 => d :: decodeStr rest2
    else c :: decodeStr rest

/-- The always-scan variant of `check_string_literal` used to state the
fast-path refinement: identical except that the raw/decoded length
comparison is dropped, so strict-mode literals are always scanned. -/
def check_string_literal_scan (lit : StringLiteral) (ctx : Ctx) :
    List Diag :=
  let raw := sliceSpan ctx.sourceText lit.span
  if ctx.strictMode then scanLoop lit.span raw
  else []

/-- The scanning loop reports exactly the diagnostic of the leftmost
forbidden escape, when one exists. -/
theorem scanLoop_eq_escDiag (sp : Span) (l : List Char) :
    scanLoop sp l =
      match scanEscapes l with
      | some k => [escDiag k sp]
      | none => [] := by
  induction l using scanEscapes.induct with
  | case1 => simp [scanLoop, scanEscapes]
  | case2 c hc =>
    simp [scanLoop, scanEscapes, hc]
  | case3 c hc d hd ih =>
    simp [scanLoop, scanEscapes, hc, hd]
  | case4 c hc d hd e tl he =>
    simp [scanLoop, scanEscapes, hc, hd, he, escDiag]
  | case5 c hc d hd e tl he ih =>
    simp only [scanLoop, scanEscapes, hc, hd, he]
    simpa [scanLoop, scanEscapes, hc, hd, he] using ih
  | case6 c hc d tl hd h17 =>
    simp [scanLoop, scanEscapes, hc, hd, h17, escDiag]
  | case7 c hc d tl hd h17 h89 =>
    simp [scanLoop, scanEscapes, hc, hd, h17, h89, escDiag]
  | case8 c hc d tl hd h17 h89 ih =>
    simp only [scanLoop, scanEscapes, hc, hd, h17, h89]
    simpa [scanLoop, scanEscapes, hc, hd, h17, h89] using ih
  | case9 c tl hc ih =>
    rw [scanLoop.eq_def, scanEscapes.eq_def]
    simp only [hc, if_false, Bool.false_eq_true]
    exact ih

/-- Decoding never lengthens the text. -/
theorem decodeStr_length_le (l : List Char) :
    (decodeStr l).length ≤ l.length := by
  induction l using decodeStr.induct with
  | case1 => simp [decodeStr]
  | case2 c hc => simp [decodeStr, hc]
  | case3 c hc d rest2 ih =>
    simp only [decodeStr, hc, if_pos]
    simp only [List.length_cons]
    omega
  | case4 c rest hc ih =>
    rw [decodeStr.eq_def]
    simp only [hc, if_false, Bool.false_eq_true, List.length_cons]
    omega

/-- A text containing a backslash decodes to a strictly shorter text. -/
theorem decodeStr_length_lt (l : List Char) (h : '\\' ∈ l) :
    (decodeStr l).length < l.length := by
  induction l using decodeStr.induct with
  | case1 => simp at h
  | case2 c hc => simp [decodeStr, hc]
  | case3 c hc d rest2 ih =>
    have hle := decodeStr_length_le rest2
    simp only [decodeStr, hc, if_pos]
    simp only [List.length_cons]
    omega
  | case4 c rest hc ih =>
    have hm : '\\' ∈ rest := by
      rcases List.mem_cons.mp h with h1 | h1
      · exact absurd (by simp [h1.symm]) hc
      · exact h1
    have := ih hm
    rw [decodeStr.eq_def]
    simp only [hc, if_false, Bool.false_eq_true, List.length_cons]
    omega

/-- A text with no backslash has no forbidden escape. -/
theorem scanEscapes_eq_none_of_not_mem (l : List Char)
    (h : '\\' ∉ l) : scanEscapes l = none := by
  induction l with
  | nil => rfl
  | cons c tl ih =>
    have hc : ¬(c == '\\') = true := by
      simp only [beq_iff_eq]
      intro he
      exact h (by simp [he])
    rw [scanEscapes.eq_def]
    simp only [hc, if_false, Bool.false_eq_true]
    exact ih fun hm => h (List.mem_cons_of_mem _ hm)

/-- A forbidden escape can only be found in a text containing a
backslash. -/
theorem mem_backslash_of_scanEscapes_some (l : List Char) (k : EscKind)
    (h : scanEscapes l = some k) : '\\' ∈ l := by
  by_contra hn
  rw [scanEscapes_eq_none_of_not_mem l hn] at h
  exact Option.noConfusion h

/-- Collecting classes stops at the heritage boundary: everything past
the first `ClassHeritage` ancestor is ignored. -/
theorem collectClasses_append_heritage (pre post : List AstKind)
    (h : AstKind.classHeritage ∉ pre) :
    collectClasses (pre ++ AstKind.classHeritage :: post) =
      collectClasses pre := by
  induction pre with
  | nil => simp [collectClasses]
  | cons k tl ih =>
    have hk : k ≠ AstKind.classHeritage := fun he => h (by simp [he])
    have htl : AstKind.classHeritage ∉ tl :=
      fun hm => h (List.mem_cons_of_mem _ hm)
    cases k <;> simp_all [collectClasses]

/-- The break walk stops successfully at the first iteration or switch
ancestor of an unlabeled `break`, provided no `Program`, `Function` or
`StaticBlock` comes first. -/
theorem breakWalk_unlabeled_qualifying (stmt : BreakStatement)
    (hl : stmt.label = none) (pre rest : List AstKind) (q : AstKind)
    (hq : (q.is_iteration_statement || q.isSwitchStatement) = true)
    (hpre : ∀ k ∈ pre, k ≠ AstKind.program ∧ k ≠ AstKind.function_ ∧
      k ≠ AstKind.staticBlock) :
    breakWalk stmt (pre ++ q :: rest) = [] := by
  induction pre with
  | nil =>
    cases q <;>
      simp_all [breakWalk, AstKind.is_iteration_statement,
        AstKind.isSwitchStatement]
  | cons k tl ih =>
    have hk := hpre k (List.mem_cons_self k tl)
    have ihp := ih fun x hx => hpre x (List.mem_cons_of_mem _ hx)
    cases k <;>
      simp_all [breakWalk, AstKind.is_iteration_statement,
        AstKind.isSwitchStatement]

/-- The break walk of a labeled `break` reports a boundary violation at
the first `Function` or `StaticBlock` ancestor, provided no `Program`
and no matching label comes first. -/
theorem breakWalk_labeled_boundary (stmt : BreakStatement)
    (label : LabelIdentifier) (hl : stmt.label = some label)
    (pre rest : List AstKind) (b : AstKind)
    (hb : b = AstKind.function_ ∨ b = AstKind.staticBlock)
    (hpre : ∀ k ∈ pre, k ≠ AstKind.program ∧
      ∀ ls, k = AstKind.labeledStatement ls → ¬ls.name = label.name) :
    breakWalk stmt (pre ++ b :: rest) =
      [Diag.invalidLabelJumpTarget label.span] := by
  induction pre with
  | nil =>
    rcases hb with hb | hb <;> subst hb <;> simp [breakWalk, hl]
  | cons k tl ih =>
    have hk := hpre k (List.mem_cons_self k tl)
    have ihp := ih fun x hx => hpre x (List.mem_cons_of_mem _ hx)
    cases k with
    | program => exact absurd rfl hk.1
    | labeledStatement ls =>
      have hne : ¬(label.name == ls.name) = true := by
        simpa using fun he => hk.2 ls rfl (by simp [he])
      simp only [List.cons_append, breakWalk, hl, hne, if_false,
        Bool.false_eq_true]
      exact ihp
    | _ =>
      simp_all [breakWalk, AstKind.is_iteration_statement,
        AstKind.isSwitchStatement]

/-- The escape scan emits at most one diagnostic. -/
theorem scanLoop_length_le_one (sp : Span) (l : List Char) :
    (scanLoop sp l).length ≤ 1 := by
  rw [scanLoop_eq_escDiag]
  cases scanEscapes l <;> simp

/-- The private-identifier validator emits at most one diagnostic. -/
theorem check_private_identifier_length_le_one (ident : PrivateIdentifier)
    (ctx : Ctx) : (check_private_identifier ident ctx).length ≤ 1 := by
  unfold check_private_identifier
  dsimp only
  split
  · simp
  · split
    · simp
    · split <;> simp

/-- The number-literal validator emits at most one diagnostic. -/
theorem check_number_literal_length_le_one (lit : NumberLiteral)
    (ctx : Ctx) : (check_number_literal lit ctx).length ≤ 1 := by
  unfold check_number_literal
  split
  · split <;> first | simp | (split <;> simp)
  · simp

/-- The string-literal validator emits at most one diagnostic. -/
theorem check_string_literal_length_le_one (lit : StringLiteral)
    (ctx : Ctx) : (check_string_literal lit ctx).length ≤ 1 := by
  unfold check_string_literal
  dsimp only
  split
  · exact scanLoop_length_le_one _ _
  · simp

/-- The regular-expression validator emits at most one diagnostic. -/
theorem check_regexp_literal_length_le_one (lit : RegExpLiteral)
    (ctx : Ctx) : (check_regexp_literal lit ctx).length ≤ 1 := by
  unfold check_regexp_literal
  dsimp only
  split <;> simp

/-- The break walk emits at most one diagnostic. -/
theorem breakWalk_length_le_one (stmt : BreakStatement)
    (l : List AstKind) : (breakWalk stmt l).length ≤ 1 := by
  induction l with
  | nil => simp [breakWalk]
  | cons k rest ih =>
    rcases hst : stmt.label with _ | lbl <;>
      cases k <;>
        simp_all [breakWalk, AstKind.is_iteration_statement,
          AstKind.isSwitchStatement] <;>
        (split <;> simp_all)

/-- Claim C1: for every unlabeled `break` statement whose ancestor chain
(nearest-first, excluding the statement itself) contains an iteration
statement or a switch statement occurring before any `Function`,
`StaticBlock` or `Program` node, the break validator stops successfully
and emits no diagnostic. -/
theorem c1_unlabeled_break_qualifying (stmt : BreakStatement) (ctx : Ctx)
    (pre rest : List AstKind) (q : AstKind)
    (hl : stmt.label = none)
    (hchain : ctx.ancestorsKinds.drop 1 = pre ++ q :: rest)
    (hq : (q.is_iteration_statement || q.isSwitchStatement) = true)
    (hpre : ∀ k ∈ pre, k ≠ AstKind.program ∧ k ≠ AstKind.function_ ∧
      k ≠ AstKind.staticBlock) :
    check_break_statement stmt ctx = [] := by
  unfold check_break_statement
  rw [hchain]
  exact breakWalk_unlabeled_qualifying stmt hl pre rest q hq hpre

/-- Claim C1 witness: an unlabeled `break` whose immediate parent is a
`while` loop produces no diagnostic. -/
theorem c1_witness :
    check_break_statement ⟨⟨10, 16⟩, none⟩
      ⟨AstKind.other,
        [AstKind.breakStatement ⟨⟨10, 16⟩, none⟩, AstKind.whileStatement,
          AstKind.program],
        false, []⟩ = [] :=
  c1_unlabeled_break_qualifying ⟨⟨10, 16⟩, none⟩
    ⟨AstKind.other,
      [AstKind.breakStatement ⟨⟨10, 16⟩, none⟩, AstKind.whileStatement,
        AstKind.program],
      false, []⟩ [] [AstKind.program]
    AstKind.whileStatement rfl rfl rfl (by simp)

/-- Claim C2 counterexample: running the rule on a `continue myLabel;`
node whose ancestors are a `switch` labeled `myLabel` emits no
diagnostic at all, contrary to the claim that an invalid-continue-target
diagnostic is reported. -/
theorem c2_counterexample :
    run (AstKind.continueStatement ⟨⟨52, 69⟩, some ⟨"myLabel", ⟨61, 68⟩⟩⟩)
      ⟨AstKind.other,
        [AstKind.continueStatement ⟨⟨52, 69⟩, some ⟨"myLabel", ⟨61, 68⟩⟩⟩,
          AstKind.switchStatement,
          AstKind.labeledStatement ⟨"myLabel", ⟨40, 47⟩⟩,
          AstKind.program],
        true, []⟩ = [] := rfl

/-- Claim C2 (amended): running the rule's entry point on any continue
statement node emits no diagnostic, because the dispatch matches only
private identifiers, number literals, string literals, regexp literals
and break statements; continue statements fall into the ignored default
arm, so the invalid-continue-target check never runs. -/
theorem c2_amended_continue_not_dispatched (stmt : ContinueStatement)
    (ctx : Ctx) : run (AstKind.continueStatement stmt) ctx = [] := rfl

/-- Claim C3: for a private-identifier occurrence whose parent is not a
`PropertyKey`: if no class is collected during the ancestor walk
(stopped at the first `ClassHeritage`), exactly the "not allowed outside
class bodies" diagnostic is emitted; and if some collected class's own
body declares the same private name, no diagnostic is emitted. -/
theorem c3_private_identifier_resolution (ident : PrivateIdentifier)
    (ctx : Ctx) (hp : ctx.parentKind.isPropertyKeyKind = false) :
    (collectClasses (ctx.ancestorsKinds.drop 1) = [] →
      check_private_identifier ident ctx =
        [Diag.privateNotInClass ident.name ident.span]) ∧
    (∀ c ∈ collectClasses (ctx.ancestorsKinds.drop 1),
      classDeclaresPrivateName c ident.name = true →
      check_private_identifier ident ctx = []) := by
  constructor
  · intro h0
    have h0' : collectClasses ctx.ancestorsKinds.tail = [] := by
      rwa [List.drop_one] at h0
    simp [check_private_identifier, hp, h0']
  · intro c hc hdecl
    have hc' : c ∈ collectClasses ctx.ancestorsKinds.tail := by
      rwa [List.drop_one] at hc
    have hne' : collectClasses ctx.ancestorsKinds.tail ≠ [] := by
      intro h0
      rw [h0] at hc'
      simp at hc'
    have hnall : ¬∀ x ∈ collectClasses ctx.ancestorsKinds.tail,
        classDeclaresPrivateName x ident.name = false := by
      intro hall
      have hx := hall c hc'
      rw [hdecl] at hx
      exact Bool.noConfusion hx
    simp [check_private_identifier, hp, hne', hnall]

/-- Claim C3 witness: outside any class the occurrence is reported, and
with an enclosing class declaring the name it is accepted. -/
theorem c3_witness :
    (check_private_identifier ⟨"foo", ⟨5, 9⟩⟩
      ⟨AstKind.other,
        [AstKind.privateIdentifier ⟨"foo", ⟨5, 9⟩⟩, AstKind.other,
          AstKind.program],
        false, []⟩ = [Diag.privateNotInClass "foo" ⟨5, 9⟩]) ∧
    (check_private_identifier ⟨"foo", ⟨5, 9⟩⟩
      ⟨AstKind.other,
        [AstKind.privateIdentifier ⟨"foo", ⟨5, 9⟩⟩,
          AstKind.class_ ⟨⟨[⟨some (PropertyKey.privateIdentifier
            ⟨"foo", ⟨30, 34⟩⟩)⟩]⟩⟩,
          AstKind.program],
        false, []⟩ = []) :=
  ⟨(c3_private_identifier_resolution ⟨"foo", ⟨5, 9⟩⟩
      ⟨AstKind.other,
        [AstKind.privateIdentifier ⟨"foo", ⟨5, 9⟩⟩, AstKind.other,
          AstKind.program],
        false, []⟩ rfl).1 rfl,
   (c3_private_identifier_resolution ⟨"foo", ⟨5, 9⟩⟩
      ⟨AstKind.other,
        [AstKind.privateIdentifier ⟨"foo", ⟨5, 9⟩⟩,
          AstKind.class_ ⟨⟨[⟨some (PropertyKey.privateIdentifier
            ⟨"foo", ⟨30, 34⟩⟩)⟩]⟩⟩,
          AstKind.program],
        false, []⟩ rfl).2
     ⟨⟨[⟨some (PropertyKey.privateIdentifier ⟨"foo", ⟨30, 34⟩⟩)⟩]⟩⟩
     (by simp [collectClasses]) rfl⟩

/-- Claim C4 counterexample: a private-identifier occurrence sitting
directly inside a class's heritage expression, whose name is declared
only in the class being defined, is reported with the "not allowed
outside class bodies" diagnostic — not with the "must be declared in an
enclosing class" diagnostic the claim prescribes, because no class at
all is collected before the `ClassHeritage` boundary. -/
theorem c4_counterexample :
    check_private_identifier ⟨"foo", ⟨18, 22⟩⟩
      ⟨AstKind.other,
        [AstKind.privateIdentifier ⟨"foo", ⟨18, 22⟩⟩, AstKind.other,
          AstKind.classHeritage,
          AstKind.class_ ⟨⟨[⟨some (PropertyKey.privateIdentifier
            ⟨"foo", ⟨30, 34⟩⟩)⟩]⟩⟩,
          AstKind.program],
        true, []⟩ = [Diag.privateNotInClass "foo" ⟨18, 22⟩] ∧
    check_private_identifier ⟨"foo", ⟨18, 22⟩⟩
      ⟨AstKind.other,
        [AstKind.privateIdentifier ⟨"foo", ⟨18, 22⟩⟩, AstKind.other,
          AstKind.classHeritage,
          AstKind.class_ ⟨⟨[⟨some (PropertyKey.privateIdentifier
            ⟨"foo", ⟨30, 34⟩⟩)⟩]⟩⟩,
          AstKind.program],
        true, []⟩ ≠ [Diag.privateFieldUndeclared "foo" ⟨18, 22⟩] := by
  constructor
  · rfl
  · decide

/-- Claim C4 (amended): the class being defined and every class beyond
the `ClassHeritage` ancestor are excluded from resolution; when at least
one class is collected before the heritage boundary and none of the
collected classes declares the name, the "must be declared in an
enclosing class" diagnostic is emitted (when no class is collected, the
"not allowed outside class bodies" diagnostic is emitted instead). -/
theorem c4_amended_heritage_exclusion (ident : PrivateIdentifier)
    (ctx : Ctx) (pre post : List AstKind)
    (hp : ctx.parentKind.isPropertyKeyKind = false)
    (hchain : ctx.ancestorsKinds.drop 1 =
      pre ++ AstKind.classHeritage :: post)
    (hnoh : AstKind.classHeritage ∉ pre)
    (hne : collectClasses pre ≠ [])
    (hnone : ∀ c ∈ collectClasses pre,
      classDeclaresPrivateName c ident.name = false) :
    check_private_identifier ident ctx =
      [Diag.privateFieldUndeclared ident.name ident.span] := by
  have hcc : collectClasses ctx.ancestorsKinds.tail =
      collectClasses pre := by
    rw [← List.drop_one, hchain]
    exact collectClasses_append_heritage pre post hnoh
  have hne' : collectClasses ctx.ancestorsKinds.tail ≠ [] := by
    rw [hcc]
    exact hne
  have hall : ∀ x ∈ collectClasses ctx.ancestorsKinds.tail,
      classDeclaresPrivateName x ident.name = false := by
    rw [hcc]
    exact hnone
  simp [check_private_identifier, hp, hne']
  exact hall

/-- Claim C4 witness: an occurrence inside a nested class in the
heritage expression, whose name is declared only in the outer class
being defined past the heritage boundary, is reported as undeclared. -/
theorem c4_witness :
    check_private_identifier ⟨"foo", ⟨18, 22⟩⟩
      ⟨AstKind.other,
        [AstKind.privateIdentifier ⟨"foo", ⟨18, 22⟩⟩,
          AstKind.class_ ⟨⟨[⟨some (PropertyKey.privateIdentifier
            ⟨"bar", ⟨12, 16⟩⟩)⟩]⟩⟩,
          AstKind.classHeritage,
          AstKind.class_ ⟨⟨[⟨some (PropertyKey.privateIdentifier
            ⟨"foo", ⟨30, 34⟩⟩)⟩]⟩⟩,
          AstKind.program],
        true, []⟩ = [Diag.privateFieldUndeclared "foo" ⟨18, 22⟩] :=
  c4_amended_heritage_exclusion ⟨"foo", ⟨18, 22⟩⟩
    ⟨AstKind.other,
      [AstKind.privateIdentifier ⟨"foo", ⟨18, 22⟩⟩,
        AstKind.class_ ⟨⟨[⟨some (PropertyKey.privateIdentifier
          ⟨"bar", ⟨12, 16⟩⟩)⟩]⟩⟩,
        AstKind.classHeritage,
        AstKind.class_ ⟨⟨[⟨some (PropertyKey.privateIdentifier
          ⟨"foo", ⟨30, 34⟩⟩)⟩]⟩⟩,
        AstKind.program],
      true, []⟩
    [AstKind.class_ ⟨⟨[⟨some (PropertyKey.privateIdentifier
      ⟨"bar", ⟨12, 16⟩⟩)⟩]⟩⟩]
    [AstKind.class_ ⟨⟨[⟨some (PropertyKey.privateIdentifier
      ⟨"foo", ⟨30, 34⟩⟩)⟩]⟩⟩, AstKind.program]
    rfl rfl (by simp) (by simp [collectClasses]) (by decide)

/-- Claim C5: a labeled `break` whose ancestor walk reaches a `Function`
or `StaticBlock` before any `LabeledStatement` with a matching name
emits the "jump target cannot cross function boundary" diagnostic,
carrying the label's span, and not the "use of undefined label"
diagnostic. -/
theorem c5_labeled_break_crosses_boundary (stmt : BreakStatement)
    (ctx : Ctx) (label : LabelIdentifier) (pre rest : List AstKind)
    (b : AstKind) (hl : stmt.label = some label)
    (hchain : ctx.ancestorsKinds.drop 1 = pre ++ b :: rest)
    (hb : b = AstKind.function_ ∨ b = AstKind.staticBlock)
    (hpre : ∀ k ∈ pre, k ≠ AstKind.program ∧
      ∀ ls, k = AstKind.labeledStatement ls → ¬ls.name = label.name) :
    check_break_statement stmt ctx =
      [Diag.invalidLabelJumpTarget label.span] ∧
    check_break_statement stmt ctx ≠
      [Diag.invalidLabelTarget label.span] := by
  have h := breakWalk_labeled_boundary stmt label hl pre rest b hb hpre
  unfold check_break_statement
  rw [hchain, h]
  exact ⟨rfl, by simp⟩

/-- Claim C5 witness: `break outer;` directly inside a function, with
the `outer` label defined outside that function. -/
theorem c5_witness :
    check_break_statement ⟨⟨20, 32⟩, some ⟨"outer", ⟨26, 31⟩⟩⟩
      ⟨AstKind.other,
        [AstKind.breakStatement ⟨⟨20, 32⟩, some ⟨"outer", ⟨26, 31⟩⟩⟩,
          AstKind.function_,
          AstKind.labeledStatement ⟨"outer", ⟨0, 5⟩⟩,
          AstKind.program],
        false, []⟩ = [Diag.invalidLabelJumpTarget ⟨26, 31⟩] :=
  (c5_labeled_break_crosses_boundary ⟨⟨20, 32⟩, some ⟨"outer", ⟨26, 31⟩⟩⟩
    ⟨AstKind.other,
      [AstKind.breakStatement ⟨⟨20, 32⟩, some ⟨"outer", ⟨26, 31⟩⟩⟩,
        AstKind.function_,
        AstKind.labeledStatement ⟨"outer", ⟨0, 5⟩⟩,
        AstKind.program],
      false, []⟩ ⟨"outer", ⟨26, 31⟩⟩ []
    [AstKind.labeledStatement ⟨"outer", ⟨0, 5⟩⟩, AstKind.program]
    AstKind.function_ rfl rfl (Or.inl rfl) (by simp)).1

/-- Claim C6: in strict mode, a string literal whose raw text contains a
forbidden escape gets exactly one diagnostic, determined by the leftmost
forbidden escape — the legacy-octal diagnostic for the two octal shapes
and the distinct non-octal-decimal diagnostic for a backslash followed
by 8 or 9; outside strict mode no diagnostic is emitted.  (The decoded
value is related to the raw text by the parser; see `decodeStr`.) -/
theorem c6_string_literal_first_escape (lit : StringLiteral) (ctx : Ctx)
    (hv : lit.value = decodeStr (sliceSpan ctx.sourceText lit.span)) :
    (∀ k, ctx.strictMode = true →
      scanEscapes (sliceSpan ctx.sourceText lit.span) = some k →
      check_string_literal lit ctx = [escDiag k lit.span]) ∧
    (ctx.strictMode = false → check_string_literal lit ctx = []) ∧
    (∀ sp, Diag.legacyOctal sp ≠ Diag.nonOctalDecimalEscapeSequence sp) := by
  refine ⟨?_, ?_, ?_⟩
  · intro k hs hscan
    have hmem := mem_backslash_of_scanEscapes_some _ _ hscan
    have hlt := decodeStr_length_lt _ hmem
    have hlen : ((sliceSpan ctx.sourceText lit.span).length !=
        lit.value.length) = true := by
      rw [hv]
      simp only [bne_iff_ne, ne_eq]
      omega
    simp [check_string_literal, hs, hlen, scanLoop_eq_escDiag, hscan]
  · intro hs
    simp [check_string_literal, hs]
  · intro sp
    simp

/-- Claim C6 witness: the literal `\8` in strict mode gets the
non-octal-decimal diagnostic. -/
theorem c6_witness :
    check_string_literal ⟨⟨0, 2⟩, ['8']⟩
      ⟨AstKind.other, [], true, ['\\', '8']⟩ =
      [Diag.nonOctalDecimalEscapeSequence ⟨0, 2⟩] :=
  (c6_string_literal_first_escape ⟨⟨0, 2⟩, ['8']⟩
    ⟨AstKind.other, [], true, ['\\', '8']⟩ (by simp [sliceSpan, decodeStr])).1
    EscKind.nonOctalDecimal rfl (by simp [sliceSpan, scanEscapes])

/-- Claim C7: the numeric-literal validator emits a diagnostic exactly
when the node is in strict-mode code, `leading_zero` holds of the raw
text, and the base is octal (legacy-octal diagnostic) or decimal
(leading-zero-decimal diagnostic); any other base, non-strict context or
raw text without a leading zero yields no diagnostic. -/
theorem c7_number_literal_diagnostics (lit : NumberLiteral) (ctx : Ctx) :
    (check_number_literal lit ctx ≠ [] ↔
      ctx.strictMode = true ∧ leading_zero lit.raw = true ∧
        (lit.base = NumberBase.octal ∨ lit.base = NumberBase.decimal)) ∧
    (ctx.strictMode = true → leading_zero lit.raw = true →
      (lit.base = NumberBase.octal →
        check_number_literal lit ctx = [Diag.legacyOctal lit.span]) ∧
      (lit.base = NumberBase.decimal →
        check_number_literal lit ctx = [Diag.leadingZeroDecimal lit.span])) := by
  cases hs : ctx.strictMode <;> cases hb : lit.base <;>
    cases hz : leading_zero lit.raw <;>
      simp [check_number_literal, hs, hb, hz]

/-- Claim C7 witness: `012` as a strict-mode decimal literal gets the
leading-zero-decimal diagnostic. -/
theorem c7_witness :
    check_number_literal ⟨NumberBase.decimal, ['0', '1', '2'], ⟨0, 3⟩⟩
      ⟨AstKind.other, [], true, []⟩ = [Diag.leadingZeroDecimal ⟨0, 3⟩] :=
  ((c7_number_literal_diagnostics
      ⟨NumberBase.decimal, ['0', '1', '2'], ⟨0, 3⟩⟩
      ⟨AstKind.other, [], true, []⟩).2 rfl rfl).2 rfl

/-- Claim C8: the string-literal fast path is behavior-preserving — when
the raw length equals the decoded length the raw text contains no
forbidden escape, and the guarded validator is extensionally equal to
the variant that always scans in strict mode. -/
theorem c8_fast_path_equivalence (lit : StringLiteral) (ctx : Ctx)
    (hv : lit.value = decodeStr (sliceSpan ctx.sourceText lit.span)) :
    check_string_literal lit ctx = check_string_literal_scan lit ctx ∧
    ((sliceSpan ctx.sourceText lit.span).length = lit.value.length →
      scanEscapes (sliceSpan ctx.sourceText lit.span) = none) := by
  have hno : (sliceSpan ctx.sourceText lit.span).length =
      lit.value.length →
      scanEscapes (sliceSpan ctx.sourceText lit.span) = none := by
    intro hlen
    apply scanEscapes_eq_none_of_not_mem
    intro hmem
    have := decodeStr_length_lt _ hmem
    rw [hv] at hlen
    omega
  refine ⟨?_, hno⟩
  by_cases hlen : (sliceSpan ctx.sourceText lit.span).length =
      lit.value.length
  · have hloop : scanLoop lit.span (sliceSpan ctx.sourceText lit.span) =
        [] := by
      rw [scanLoop_eq_escDiag, hno hlen]
    simp [check_string_literal, check_string_literal_scan, hlen, hloop]
  · have hb : ((sliceSpan ctx.sourceText lit.span).length !=
        lit.value.length) = true := by
      simpa [bne_iff_ne] using hlen
    simp [check_string_literal, check_string_literal_scan, hb]

/-- Claim C8 witness: on a literal with no escapes the guarded validator
and the always-scan variant agree. -/
theorem c8_witness :
    check_string_literal ⟨⟨0, 2⟩, ['a', 'b']⟩
      ⟨AstKind.other, [], true, ['a', 'b']⟩ =
      check_string_literal_scan ⟨⟨0, 2⟩, ['a', 'b']⟩
        ⟨AstKind.other, [], true, ['a', 'b']⟩ :=
  (c8_fast_path_equivalence ⟨⟨0, 2⟩, ['a', 'b']⟩
    ⟨AstKind.other, [], true, ['a', 'b']⟩
    (by simp [sliceSpan, decodeStr])).1

/-- Claim C9: the regular-expression validator emits exactly one
"mutually exclusive flags" diagnostic when both the `u` and `v` flags
are present, and no diagnostic when at most one of the two is present,
regardless of the other flags. -/
theorem c9_regexp_flags (lit : RegExpLiteral) (ctx : Ctx) :
    (lit.regex.flags.u = true ∧ lit.regex.flags.v = true →
      check_regexp_literal lit ctx = [Diag.regExpFlagUAndV lit.span]) ∧
    ((lit.regex.flags.u = false ∨ lit.regex.flags.v = false) →
      check_regexp_literal lit ctx = []) := by
  have hc : ∀ f : RegExpFlags,
      f.contains (RegExpFlags.U.union RegExpFlags.V) = (f.u && f.v) := by
    intro f
    simp [RegExpFlags.contains, RegExpFlags.union, RegExpFlags.U,
      RegExpFlags.V]
  constructor
  · rintro ⟨hu, hv⟩
    simp [check_regexp_literal, hc, hu, hv]
  · rintro (h | h) <;> simp [check_regexp_literal, hc, h]

/-- Claim C9 witness: `u` and `v` together are reported; `u` alone with
every other flag set is not. -/
theorem c9_witness :
    (check_regexp_literal
      ⟨⟨0, 6⟩, ⟨⟨false, false, false, false, true, false, false, true⟩⟩⟩
      ⟨AstKind.other, [], false, []⟩ = [Diag.regExpFlagUAndV ⟨0, 6⟩]) ∧
    (check_regexp_literal
      ⟨⟨0, 6⟩, ⟨⟨true, true, true, true, true, true, true, false⟩⟩⟩
      ⟨AstKind.other, [], false, []⟩ = []) :=
  ⟨(c9_regexp_flags
      ⟨⟨0, 6⟩, ⟨⟨false, false, false, false, true, false, false, true⟩⟩⟩
      ⟨AstKind.other, [], false, []⟩).1 ⟨rfl, rfl⟩,
   (c9_regexp_flags
      ⟨⟨0, 6⟩, ⟨⟨true, true, true, true, true, true, true, false⟩⟩⟩
      ⟨AstKind.other, [], false, []⟩).2 (Or.inr rfl)⟩

/-- Claim C10: a single invocation of the rule's entry point emits at
most one diagnostic: the dispatch routes to at most one validator and
every validator stops after its first emission. -/
theorem c10_run_at_most_one_diagnostic (kind : AstKind) (ctx : Ctx) :
    (run kind ctx).length ≤ 1 := by
  cases kind
  case privateIdentifier ident =>
    exact check_private_identifier_length_le_one ident ctx
  case numberLiteral lit =>
    exact check_number_literal_length_le_one lit ctx
  case stringLiteral lit =>
    exact check_string_literal_length_le_one lit ctx
  case regExpLiteral lit =>
    exact check_regexp_literal_length_le_one lit ctx
  case breakStatement stmt =>
    exact breakWalk_length_le_one stmt (ctx.ancestorsKinds.drop 1)
  all_goals simp [run]

end EarlyErrorJs
